import Mathlib

/-!
Verification of the OAuth 1.0a client (files `oauth1_client.go` and the
unnamed Go 1 port of the same package).  The repository contains two
variants of the same package: a legacy pre-Go1 file and its current Go 1
port.  The two variants declare the same symbols in the same package and
cannot be compiled together; the Go 1 port (`src/unnamed/part_000`) is the
live code and is the variant embedded here.  Where the legacy file
disagrees (query stripping in the base string, the `oauth_verifier`
requirement, the extra `!*'()` escaping), the embedding follows the Go 1
port.

Go strings are byte strings; they are embedded as `List Nat` with every
element a byte value.  External effects (the HTTP transport, `time.Now`,
the random nonce seed) enter the model as explicit parameters.
-/

set_option autoImplicit false

namespace OAuth1

/-- Go strings are immutable byte strings; we model them as lists of byte
values (each a `Nat`). -/
abbrev GoStr := List Nat

/-- UTF-8 encoding of a single code point, used to translate Lean string
literals into the byte strings Go operates on. -/
def utf8Char (n : Nat) : List Nat :=
  if n < 0x80 then [n]
  else if n < 0x800 then [0xC0 + n / 0x40, 0x80 + n % 0x40]
  else if n < 0x10000 then
    [0xE0 + n / 0x1000, 0x80 + n / 0x40 % 0x40, 0x80 + n % 0x40]
  else
    [0xF0 + n / 0x40000, 0x80 + n / 0x1000 % 0x40, 0x80 + n / 0x40 % 0x40, 0x80 + n % 0x40]

/-- Byte string corresponding to a Lean string literal (UTF-8 bytes, as a Go
source literal denotes). -/
def gs (s : String) : GoStr :=
  s.data.foldr (fun c acc => utf8Char c.toNat ++ acc) []

/-- Decimal representation of a natural number as a byte string, modelling
`strconv.FormatInt(_, 10)` for the non-negative timestamps that occur. -/
def natToDec (n : Nat) : GoStr :=
  (Nat.toDigits 10 n).map Char.toNat

/-- ASCII letters and digits (`shouldEscape` lets these through). -/
def isAlnumByte (b : Nat) : Bool :=
  (65 ≤ b && b ≤ 90) || (97 ≤ b && b ≤ 122) || (48 ≤ b && b ≤ 57)

/-- The four unreserved marks `- _ . ~` of RFC 3986 §2.3. -/
def isMarkByte (b : Nat) : Bool :=
  b == 45 || b == 95 || b == 46 || b == 126

/-- Bytes that `net/url` leaves unescaped in a query component. -/
def isUnreservedByte (b : Nat) : Bool :=
  isAlnumByte b || isMarkByte b

/-- Go 1 `net/url.shouldEscape` for `encodeQueryComponent`: everything
except alphanumerics and `- _ . ~` is escaped. -/
def shouldEscapeQueryByte (b : Nat) : Bool :=
  !isUnreservedByte b

/-- Uppercase hexadecimal digit for a value below 16 (the `"0123456789ABCDEF"`
table of both `net/url` and the extra OAuth escaping loop). -/
def hexUpperDigit (n : Nat) : Nat :=
  if n < 10 then 48 + n else 55 + n

/-- Percent-escape of one byte: `'%'` followed by two uppercase hex digits. -/
def percentByte (b : Nat) : GoStr :=
  [37, hexUpperDigit (b / 16 % 16), hexUpperDigit (b % 16)]

/-- Go 1 `net/url.QueryEscape`: unreserved bytes pass through, space becomes
`'+'`, every other byte becomes `%XX` with uppercase hex digits. -/
def queryEscape : GoStr → GoStr
  | [] => []
  | b :: bs =>
    (if shouldEscapeQueryByte b then (if b == 32 then [43] else percentByte b) else [b])
      ++ queryEscape bs

/-- The five characters `! * ' ( )` that the OAuth spec escapes even though
some generic URL-encoders treat them as safe (bytes 33 42 39 40 41). -/
def isOAuthExtraByte (b : Nat) : Bool :=
  b == 33 || b == 42 || b == 39 || b == 40 || b == 41

/-- The rewrite loop of `oauthEncode` (part_000 lines 102-118): every
occurrence of `! * ' ( )` in the already-escaped string is replaced by its
`%XX` escape, all other bytes are copied. -/
def oauthExtraEscape : GoStr → GoStr
  | [] => []
  | b :: bs =>
    (if isOAuthExtraByte b then percentByte b else [b]) ++ oauthExtraEscape bs

/-- `oauthEncode` (part_000 lines 92-121): `url.QueryEscape` followed by a
count-and-rewrite pass that escapes any remaining `! * ' ( )`. -/
def oauthEncode (text : GoStr) : GoStr :=
  let s := queryEscape text
  if 0 < s.countP (fun b => isOAuthExtraByte b) then oauthExtraEscape s else s

/-- Hexadecimal digit test of `net/url.ishex`. -/
def isHexByte (b : Nat) : Bool :=
  (48 ≤ b && b ≤ 57) || (97 ≤ b && b ≤ 102) || (65 ≤ b && b ≤ 70)

/-- Value of a hexadecimal digit byte (`net/url.unhex`). -/
def hexVal (b : Nat) : Nat :=
  if 48 ≤ b && b ≤ 57 then b - 48
  else if 97 ≤ b && b ≤ 102 then b - 87
  else b - 55

/-- Go 1 `net/url.QueryUnescape`: `%XX` decodes to a byte (two valid hex
digits required, otherwise the whole call errors), `'+'` decodes to space,
everything else passes through.  `none` models the error return. -/
def queryUnescape : GoStr → Option GoStr
  | [] => some []
  | 37 :: rest =>
    match rest with
    | a :: b :: rest' =>
      if isHexByte a && isHexByte b then
        (queryUnescape rest').map (fun t => (hexVal a * 16 + hexVal b) :: t)
      else none
    | _ => none
  | 43 :: rest => (queryUnescape rest).map (fun t => 32 :: t)
  | b :: rest => (queryUnescape rest).map (fun t => b :: t)

/-- The `value, _ := url.QueryUnescape(s)` idiom: Go returns the empty
string alongside the (discarded) error. -/
def unescapeOr (s : GoStr) : GoStr :=
  (queryUnescape s).getD []

/-- Errors that flow through the exchange code: `url.EscapeError` payloads
from query parsing, and `errors.New` text errors (whose text is often a raw
response body). -/
inductive GoErr where
  | escapeError : GoStr → GoErr
  | textError : GoStr → GoErr
deriving DecidableEq, Repr

/-- `url.Values`: a map from name to a slice of values.  The association
list keeps one entry per key; the entry order stands for the (irrelevant,
since every consumer sorts or searches by key) map iteration order. -/
abbrev Values := List (GoStr × List GoStr)

/-- `Values.Set`: replace the slice for the key with the single value. -/
def vSet : Values → GoStr → GoStr → Values
  | [], k, v => [(k, [v])]
  | (k', vs) :: m, k, v =>
    if k' = k then (k, [v]) :: m else (k', vs) :: vSet m k v

/-- `Values.Add`: append the value to the slice for the key. -/
def vAdd : Values → GoStr → GoStr → Values
  | [], k, v => [(k, [v])]
  | (k', vs) :: m, k, v =>
    if k' = k then (k', vs ++ [v]) :: m else (k', vs) :: vAdd m k v

/-- `Values.Del`: remove the key. -/
def vDel (m : Values) (k : GoStr) : Values :=
  m.filter (fun e => decide (e.1 ≠ k))

/-- The slice stored for a key (`m[k]`); an absent key yields the nil
slice. -/
def valuesOf : Values → GoStr → List GoStr
  | [], _ => []
  | (k', vs) :: m, k => if k' = k then vs else valuesOf m k

/-- `Values.Get`: the first value for the key, or the empty string. -/
def vGet (m : Values) (k : GoStr) : GoStr :=
  match valuesOf m k with
  | v :: _ => v
  | [] => []

/-- Splitting of a query string at every `'&'` or `';'` (byte 38 or 59),
the separators of Go 1 `url.parseQuery`; empty segments are kept and
skipped by the caller, as in the Go loop. -/
def splitSeps : GoStr → List GoStr
  | [] => [[]]
  | b :: bs =>
    if b == 38 || b == 59 then [] :: splitSeps bs
    else
      match splitSeps bs with
      | seg :: rest => (b :: seg) :: rest
      | [] => [[b]]

/-- Splitting of one `key=value` segment at the first `'='` (byte 61); a
segment without `'='` yields an empty value, as in `url.parseQuery`. -/
def splitEq : GoStr → GoStr × GoStr
  | [] => ([], [])
  | b :: bs =>
    if b == 61 then ([], bs)
    else
      let p := splitEq bs
      (b :: p.1, p.2)

/-- One iteration of the Go 1 `url.parseQuery` loop: skip empty segments,
unescape key and value (an unescape failure records the first error and
drops the pair), append the value under the key. -/
def processSegment (acc : Values × Option GoErr) (seg : GoStr) : Values × Option GoErr :=
  if seg.isEmpty then acc
  else
    let kv := splitEq seg
    match queryUnescape kv.1 with
    | none => (acc.1, acc.2 <|> some (GoErr.escapeError kv.1))
    | some k =>
      match queryUnescape kv.2 with
      | none => (acc.1, acc.2 <|> some (GoErr.escapeError kv.2))
      | some v => (vAdd acc.1 k v, acc.2)

/-- Go 1 `url.ParseQuery`: the returned map is always allocated (never
nil); the error is the first unescape failure, with all well-formed pairs
still collected. -/
def parseQuery (s : GoStr) : Values × Option GoErr :=
  (splitSeps s).foldl processSegment ([], none)

/-- Byte-wise lexicographic order on byte strings; this is exactly the `<=`
that Go's `sort.Strings` uses, since Go compares strings byte by byte. -/
def goStrLe : GoStr → GoStr → Bool
  | [], _ => true
  | _ :: _, [] => false
  | a :: as, b :: bs =>
    if a < b then true
    else if b < a then false
    else goStrLe as bs

/-- Insertion step of the key sort. -/
def insertSorted (x : GoStr) : List GoStr → List GoStr
  | [] => [x]
  | y :: ys => if goStrLe x y then x :: y :: ys else y :: insertSorted x ys

/-- Sorting of a list of byte strings into byte-wise lexicographic order,
modelling `sort.Strings` (the keys are distinct, so stability is moot). -/
def sortStrings (l : List GoStr) : List GoStr :=
  l.foldr insertSorted []

/-- `getSortedKeys` (part_000 lines 123-137): the map's keys in sorted
order. -/
def getSortedKeys (m : Values) : List GoStr :=
  sortStrings (m.map Prod.fst)

/-- `strings.Join`. -/
def joinWith (sep : GoStr) : List GoStr → GoStr
  | [] => []
  | [x] => x
  | x :: xs => x ++ sep ++ joinWith sep xs

/-- ASCII whitespace bytes; `strings.TrimSpace` trims Unicode whitespace,
of which only these occur as single bytes. -/
def isSpaceByte (b : Nat) : Bool :=
  b == 32 || (9 ≤ b && b ≤ 13)

/-- `strings.TrimSpace` restricted to the ASCII whitespace bytes (the
multi-byte Unicode spaces are not modelled; no claim depends on them). -/
def trimSpace (s : GoStr) : GoStr :=
  ((s.dropWhile isSpaceByte).reverse.dropWhile isSpaceByte).reverse

/-- `strings.SplitN(uri, "?", 2)[0]`: the bytes before the first `'?'`
(byte 63), or the whole string when there is none. -/
def takeBeforeQuestion (s : GoStr) : GoStr :=
  s.takeWhile (fun b => b != 63)

/-- `AuthToken` credentials: an opaque token/secret pair.  A Go `AuthToken`
interface value can also be nil, which is modelled as `Option AuthToken`
at the use sites. -/
structure AuthToken where
  token : GoStr
  secret : GoStr
deriving DecidableEq, Repr

/-- The provider-specific read-only configuration consulted by
`oauth1PrepareRequest`: `Realm()`, `ConsumerKey()`, `ConsumerSecret()` and
`CallbackUrl()` of the `OAuth1Client`. -/
structure OAuth1ClientConfig where
  realm : GoStr
  consumerKey : GoStr
  consumerSecret : GoStr
  callbackUrl : GoStr
deriving DecidableEq, Repr

/-- Parameter collection of `oauth1PrepareRequest` (part_000 lines
158-199): OAuth protocol parameters, then the URL's own query parameters,
then the additional parameters, which replace same-named entries.

External inputs are made explicit: `timestamp` is the effective Unix time
(the code substitutes `time.Now()` for the zero time before formatting),
`nonce` is the effective nonce (the code substitutes `newNonce()` for the
empty string), and `urlQuery` is `url.Parse(uri).Query()` together with
its map iteration order, `none` when `url.Parse` failed. -/
def oauth1CollectParams (p : OAuth1ClientConfig) (credentials : Option AuthToken)
    (urlQuery : Option Values) (additional_params : Option Values)
    (timestamp : Nat) (nonce : GoStr) : Values :=
  let params : Values := []
  let params := if !p.realm.isEmpty then vSet params (gs "realm") p.realm else params
  let params := vSet params (gs "oauth_consumer_key") p.consumerKey
  let params := vSet params (gs "oauth_signature_method") (gs "HMAC-SHA1")
  let params := vSet params (gs "oauth_timestamp") (natToDec timestamp)
  let params := vSet params (gs "oauth_nonce") nonce
  let params := vSet params (gs "oauth_version") (gs "1.0")
  let credToken : GoStr := match credentials with
    | some c => c.token
    | none => []
  let params :=
    if !credToken.isEmpty then vSet params (gs "oauth_token") credToken
    else if !p.callbackUrl.isEmpty then vSet params (gs "oauth_callback") p.callbackUrl
    else params
  let params := match urlQuery with
    | some q =>
      if !q.isEmpty then
        q.foldl (fun ps kv => kv.2.foldl (fun ps2 v => vAdd ps2 kv.1 v) ps) params
      else params
    | none => params
  let params := match additional_params with
    | some ap =>
      if !ap.isEmpty then
        ap.foldl
          (fun ps kv =>
            if !kv.2.isEmpty then
              kv.2.foldl (fun ps2 v => vAdd ps2 kv.1 v) (vDel ps kv.1)
            else ps)
          params
      else params
    | none => params
  params

/-- Result of `oauth1PrepareRequest` up to the HMAC computation: the code
computes `base64(HMAC-SHA1(key, message))`, trims it, and stores it under
`oauth_signature`; the digest consumes `key` and `message` verbatim, so
those two strings together with the parameter set carry the whole
signing-relevant content. -/
structure PreparedSignature where
  message : GoStr
  key : GoStr
  params : Values
deriving DecidableEq, Repr

/-- `oauth1PrepareRequest` (part_000 lines 157-225): assemble the parameter
set, build the sorted percent-encoded parameter string, the signature base
string `message`, and the HMAC key. -/
def oauth1PrepareRequest (p : OAuth1ClientConfig) (credentials : Option AuthToken)
    (method uri : GoStr) (urlQuery : Option Values) (additional_params : Option Values)
    (timestamp : Nat) (nonce : GoStr) : PreparedSignature :=
  let method := if method.isEmpty then gs "GET" else method
  let params := oauth1CollectParams p credentials urlQuery additional_params timestamp nonce
  let params_arr := (getSortedKeys params).foldl
    (fun acc k =>
      (valuesOf params k).foldl
        (fun acc2 v => acc2 ++ [joinWith [61] [oauthEncode k, oauthEncode v]]) acc)
    []
  let params_str := joinWith [38] params_arr
  let message := joinWith [38]
    [method, oauthEncode (trimSpace (takeBeforeQuestion uri)), oauthEncode params_str]
  let secret : GoStr := match credentials with
    | some c => if !c.secret.isEmpty then c.secret else []
    | none => []
  let key := joinWith [38] [p.consumerSecret, secret]
  { message := message, key := key, params := params }

/-- `oauth1SecretInfo`: the value type of the correlation table
`oauth1TokenSecretMap`. -/
structure SecretInfo where
  service : GoStr
  token : GoStr
  secret : GoStr
deriving DecidableEq, Repr

/-- The correlation table `oauth1TokenSecretMap`, a Go map from token to
`*oauth1SecretInfo`; modelled as an association list with at most one entry
per key. -/
abbrev TokenSecretMap := List (GoStr × SecretInfo)

/-- Map read `m[k]` (`none` models the nil pointer of an absent key). -/
def mapLookup : TokenSecretMap → GoStr → Option SecretInfo
  | [], _ => none
  | (k', v) :: m, k => if k' = k then some v else mapLookup m k

/-- Map write `m[k] = v` (last write wins). -/
def mapInsert : TokenSecretMap → GoStr → SecretInfo → TokenSecretMap
  | [], k, v => [(k, v)]
  | (k', v') :: m, k, v =>
    if k' = k then (k, v) :: m else (k', v') :: mapInsert m k v

/-- The recurrent guard `credentials != nil && len(credentials.Token()) > 0
&& len(credentials.Secret()) > 0`. -/
def credUsable : Option AuthToken → Bool
  | some c => !c.token.isEmpty && !c.secret.isEmpty
  | none => false

/-- `defaultOAuth1ParseAuthToken` (part_000 lines 302-311): parse the body
as a form-encoded query and read `oauth_token` / `oauth_token_secret`.  Go 1
`url.ParseQuery` always returns an allocated map, so the nil-map branch of
the Go code is dead and a credential object is always produced; the result
type keeps the `Option` of the nilable Go interface to state that fact. -/
def defaultOAuth1ParseAuthToken (value : GoStr) : Option AuthToken × Option GoErr :=
  let pr := parseQuery value
  (some { token := vGet pr.1 (gs "oauth_token"), secret := vGet pr.1 (gs "oauth_token_secret") },
    pr.2)

/-- Outcome of one HTTP round trip, the model of what
`OAuth1MakeSyncRequest` plus `ioutil.ReadAll` deliver: the transport error,
whether a response with a body arrived (`resp != nil && resp.Body != nil`),
the bytes the read produced, and the read error. -/
structure NetResult where
  transportErr : Option GoErr
  hasBody : Bool
  body : GoStr
  readErr : Option GoErr
deriving DecidableEq, Repr

/-- `getAuthToken` (part_000 lines 313-334): the request-token leg.  On
transport error, fail.  Otherwise read the body (the read error is
overwritten by the parse result in the Go code and therefore ignored),
parse it, record usable credentials in the correlation table, and turn a
non-empty body that yielded no usable pair into a text error.  `svc` is
`p.ServiceId()` and `parse` is `p.ParseRequestTokenResult`. -/
def getAuthToken (svc : GoStr) (parse : GoStr → Option AuthToken × Option GoErr)
    (table : TokenSecretMap) (net : NetResult) :
    Option AuthToken × Option GoErr × TokenSecretMap :=
  match net.transportErr with
  | some e => (none, some e, table)
  | none =>
    let body := net.body
    let pr := parse body
    let credentials := pr.1
    let err := pr.2
    if credUsable credentials then
      match credentials with
      | some c =>
        (credentials, err, mapInsert table c.token
          { service := svc, token := c.token, secret := c.secret })
      | none => (credentials, err, table)
    else if err = none ∧ body ≠ [] then (credentials, some (GoErr.textError body), table)
    else (credentials, err, table)

/-- Everything `oauth1RequestToken` produces or sends: the parsed
credentials `c`, the body text, the propagated error, the updated table,
the temporary credentials actually used to sign the access-token request
(line 352), and whether an `oauth_verifier` parameter was attached. -/
structure RequestTokenResult where
  cred : Option AuthToken
  body : GoStr
  err : Option GoErr
  table : TokenSecretMap
  signingCred : AuthToken
  verifierParamSet : Bool
deriving DecidableEq, Repr

/-- `oauth1RequestToken` (part_000 lines 336-382): the access-token leg.
Query-unescape the supplied token and verifier, resolve the token secret
through the correlation table with fallback to the supplied credentials'
secret, send the signed request (outcome `net`), read the body when a
response with a body arrived, parse it, record usable credentials, turn a
non-empty unusable body into a text error, and propagate the first error
among transport, body and parse. -/
def oauth1RequestToken (svc : GoStr) (parse : GoStr → Option AuthToken × Option GoErr)
    (table : TokenSecretMap) (credentials : AuthToken) (verifier : GoStr)
    (net : NetResult) : RequestTokenResult :=
  let auth_token := unescapeOr credentials.token
  let auth_verifier := unescapeOr verifier
  let baseSecret : GoStr :=
    match mapLookup table auth_token with
    | some info => info.secret
    | none => []
  let auth_secret :=
    if baseSecret.isEmpty && !credentials.secret.isEmpty then credentials.secret
    else baseSecret
  let signing : AuthToken := { token := auth_token, secret := auth_secret }
  let err := net.transportErr
  let body : GoStr := if net.hasBody then net.body else []
  let err2 : Option GoErr := if net.hasBody then net.readErr else none
  let pr := parse body
  let c := pr.1
  let err3 := pr.2
  let usable := credUsable c
  let table2 :=
    if usable then
      match c with
      | some cc => mapInsert table cc.token
          { service := svc, token := cc.token, secret := cc.secret }
      | none => table
    else table
  let err2b :=
    if usable then err2
    else if err2.isNone && !body.isEmpty then some (GoErr.textError body)
    else err2
  let errFinal := if err.isSome then err else if err2b.isSome then err2b else err3
  { cred := c, body := body, err := errFinal, table := table2,
    signingCred := signing, verifierParamSet := !auth_verifier.isEmpty }

/-- Result of `oauth1RequestTokenGranted`: the boolean return value, the
credentials installed through `SetCurrentCredentials` (`none` when the
current credentials were left untouched), the table state, and whether the
network was reached. -/
structure GrantedResult where
  granted : Bool
  newCurrent : Option AuthToken
  table : TokenSecretMap
  netAttempted : Bool
deriving DecidableEq, Repr

/-- `oauth1RequestTokenGranted` (part_000 lines 414-432): extract
`oauth_token` and `oauth_verifier` from the callback request's query
(`req = none` models a nil request; the string is the raw query).  A
missing token means not granted, before any network traffic; otherwise run
the access-token leg and install the resulting credentials unless it
errored or returned nil. -/
def oauth1RequestTokenGranted (svc : GoStr)
    (parse : GoStr → Option AuthToken × Option GoErr) (table : TokenSecretMap)
    (req : Option GoStr) (net : NetResult) : GrantedResult :=
  match req with
  | none => { granted := false, newCurrent := none, table := table, netAttempted := false }
  | some rawQuery =>
    let q := (parseQuery rawQuery).1
    let token := vGet q (gs "oauth_token")
    let verifier := vGet q (gs "oauth_verifier")
    if token.isEmpty then
      { granted := false, newCurrent := none, table := table, netAttempted := false }
    else
      let r := oauth1RequestToken svc parse table { token := token, secret := [] } verifier net
      if r.err.isSome || r.cred.isNone then
        { granted := false, newCurrent := none, table := r.table, netAttempted := true }
      else
        { granted := true, newCurrent := r.cred, table := r.table, netAttempted := true }

/-- Result of `oauth1ExchangeRequestTokenForAccess`: the returned error,
the installed credentials (`none` when untouched), the table, and whether
the network was reached. -/
structure ExchangeResult where
  err : Option GoErr
  newCurrent : Option AuthToken
  table : TokenSecretMap
  netAttempted : Bool
deriving DecidableEq, Repr

/-- `oauth1ExchangeRequestTokenForAccess` (part_000 lines 434-462): the
strict variant of handshake completion.  Nil request and missing token are
reported as errors before any network traffic; the table is consulted for
the raw callback token; after the access-token leg, only a full token and
secret pair is installed, and a non-empty body that produced none is
returned as a text error. -/
def oauth1ExchangeRequestTokenForAccess (svc : GoStr)
    (parse : GoStr → Option AuthToken × Option GoErr) (table : TokenSecretMap)
    (req : Option GoStr) (net : NetResult) : ExchangeResult :=
  match req with
  | none =>
    { err := some (GoErr.textError (gs "Request cannot be nil")), newCurrent := none,
      table := table, netAttempted := false }
  | some rawQuery =>
    let q := (parseQuery rawQuery).1
    let token := vGet q (gs "oauth_token")
    let verifier := vGet q (gs "oauth_verifier")
    if token.isEmpty then
      { err := some (GoErr.textError (gs "Expected oauth_token")), newCurrent := none,
        table := table, netAttempted := false }
    else
      let secret : GoStr :=
        match mapLookup table token with
        | some info => info.secret
        | none => []
      let r := oauth1RequestToken svc parse table { token := token, secret := secret }
        verifier net
      match r.err with
      | some e => { err := some e, newCurrent := none, table := r.table, netAttempted := true }
      | none =>
        if credUsable r.cred then
          { err := none, newCurrent := r.cred, table := r.table, netAttempted := true }
        else if !r.body.isEmpty then
          { err := some (GoErr.textError r.body), newCurrent := none, table := r.table,
            netAttempted := true }
        else
          { err := none, newCurrent := none, table := r.table, netAttempted := true }

/-!  Spec-side definitions.  The following definitions are written from the
words of the specification and of the claims, to be compared with the
definitions above, which are transcribed from the Go source. -/

/-- The encoder exactly as claim C3 words it: every byte outside the
unreserved set `A-Z a-z 0-9 - . _ ~` (which includes the five bytes
`! * ' ( )`) is percent-encoded with uppercase hex digits, and nothing
else is rewritten. -/
def claimedOAuthEncode : GoStr → GoStr
  | [] => []
  | b :: bs =>
    (if isUnreservedByte b then [b] else percentByte b) ++ claimedOAuthEncode bs

/-- The amended encoder: as the claim, except that the space byte is
emitted as `'+'` (the query-escape convention) instead of `%20`. -/
def amendedOAuthEncode : GoStr → GoStr
  | [] => []
  | b :: bs =>
    (if isUnreservedByte b then [b]
     else if b == 32 then [43]
     else percentByte b) ++ amendedOAuthEncode bs

/-- Concatenation of a list of lists. -/
def concatAll {α : Type} : List (List α) → List α
  | [] => []
  | l :: ls => l ++ concatAll ls

/-- The parameter string as claim C1 words it: parameter names sorted in
byte-wise lexical order, every value of a multi-valued parameter kept as
its own `name=value` pair, names and values percent-encoded (with the one
shared encoder), pairs joined with `'='` and the pair list joined with
`'&'`. -/
def specParameterString (params : Values) : GoStr :=
  joinWith [38]
    (concatAll ((sortStrings (params.map Prod.fst)).map
      (fun k => (valuesOf params k).map
        (fun v => joinWith [61] [oauthEncode k, oauthEncode v]))))

/-- ASCII uppercasing of one byte. -/
def toUpperByte (b : Nat) : Nat :=
  if 97 ≤ b && b ≤ 122 then b - 32 else b

/-- The signature base string exactly as claim C1 words it:
`METHOD&encoded(base_url_without_query)&encoded(parameter_string)` with the
HTTP method in uppercase. -/
def claimedBaseString (method uri : GoStr) (params : Values) : GoStr :=
  joinWith [38]
    [method.map toUpperByte,
     oauthEncode (trimSpace (takeBeforeQuestion uri)),
     oauthEncode (specParameterString params)]

/-- First non-`none` element of an error priority list, as the spec words
the propagation policy. -/
def firstNonNil : List (Option GoErr) → Option GoErr
  | [] => none
  | some e :: _ => some e
  | none :: rest => firstNonNil rest

/-- The body-stage error as claim C7 words it: the body-read error, which
also covers a non-empty body that yields no usable token+secret pair,
surfaced verbatim as the error text. -/
def bodyStageError (parse : GoStr → Option AuthToken × Option GoErr)
    (net : NetResult) : Option GoErr :=
  let body : GoStr := if net.hasBody then net.body else []
  let readE : Option GoErr := if net.hasBody then net.readErr else none
  match readE with
  | some e => some e
  | none =>
    if !(credUsable (parse body).1) && !body.isEmpty then
      some (GoErr.textError body)
    else none

/-!  Concrete inputs used by counterexamples and witnesses. -/

/-- A client configuration with no realm and no callback. -/
def cfgPlain : OAuth1ClientConfig :=
  { realm := [], consumerKey := gs "ck", consumerSecret := gs "cs", callbackUrl := [] }

/-- A client configuration whose consumer secret contains a space. -/
def cfgSpacySecret : OAuth1ClientConfig :=
  { realm := [], consumerKey := gs "ck", consumerSecret := gs "a b", callbackUrl := [] }

/-- A round trip that succeeds with an empty response body. -/
def netEmptyBody : NetResult :=
  { transportErr := none, hasBody := true, body := [], readErr := none }

/-- A round trip that succeeds with a well-formed access-token body. -/
def netAccessBody : NetResult :=
  { transportErr := none, hasBody := true,
    body := gs "oauth_token=at&oauth_token_secret=as", readErr := none }

/-- A round trip that succeeds with a request-token body for `(t1, s1)`. -/
def netRequestBody : NetResult :=
  { transportErr := none, hasBody := true,
    body := gs "oauth_token=t1&oauth_token_secret=s1", readErr := none }

/-- Correlation-table entry for temporary token `t1` with secret `s1`. -/
def infoT1 : SecretInfo :=
  { service := gs "svc", token := gs "t1", secret := gs "s1" }

/-- Correlation-table entry for a temporary token that contains `'+'`. -/
def infoPlus : SecretInfo :=
  { service := gs "svc", token := gs "a+b", secret := gs "s" }

/-!  Helper lemmas. -/

theorem extraByte_cases {b : Nat} (h : isOAuthExtraByte b = true) :
    b = 33 ∨ b = 42 ∨ b = 39 ∨ b = 40 ∨ b = 41 := by
  have h' := h
  simp only [isOAuthExtraByte, Bool.or_eq_true, beq_iff_eq] at h'
  tauto

theorem extra_false_of_ge {b : Nat} (h : 43 ≤ b) : isOAuthExtraByte b = false := by
  cases hb : isOAuthExtraByte b with
  | false => rfl
  | true => rcases extraByte_cases hb with h' | h' | h' | h' | h' <;> omega

theorem hexUpperDigit_ge (n : Nat) : 48 ≤ hexUpperDigit n := by
  unfold hexUpperDigit; split <;> omega

theorem unreserved_not_extra {b : Nat} (h : isUnreservedByte b = true) :
    isOAuthExtraByte b = false := by
  cases hb : isOAuthExtraByte b with
  | false => rfl
  | true =>
    rcases extraByte_cases hb with h' | h' | h' | h' | h' <;> subst h' <;>
      exact absurd h (by decide)

theorem escPiece_not_extra (a b : Nat)
    (hb : b ∈ (if shouldEscapeQueryByte a then (if a == 32 then [43] else percentByte a)
      else [a])) :
    isOAuthExtraByte b = false := by
  split at hb
  · split at hb
    · simp at hb; subst hb; decide
    · simp only [percentByte, List.mem_cons, List.not_mem_nil, or_false] at hb
      rcases hb with hb | hb | hb <;> subst hb
      · decide
      · exact extra_false_of_ge (by have := hexUpperDigit_ge (a / 16 % 16); omega)
      · exact extra_false_of_ge (by have := hexUpperDigit_ge (a % 16); omega)
  · simp at hb; subst hb
    rename_i hesc
    cases hu : isUnreservedByte b with
    | true => exact unreserved_not_extra hu
    | false => exact absurd (by simp [shouldEscapeQueryByte, hu]) hesc

theorem mem_queryEscape_not_extra {bs : GoStr} {b : Nat} (hb : b ∈ queryEscape bs) :
    isOAuthExtraByte b = false := by
  induction bs with
  | nil => simp [queryEscape] at hb
  | cons a as ih =>
    rw [queryEscape] at hb
    rcases List.mem_append.mp hb with hb | hb
    · exact escPiece_not_extra a b hb
    · exact ih hb

theorem oauthEncode_eq_queryEscape (bs : GoStr) : oauthEncode bs = queryEscape bs := by
  unfold oauthEncode
  have h0 : (queryEscape bs).countP (fun b => isOAuthExtraByte b) = 0 := by
    rw [List.countP_eq_zero]
    intro b hb
    simp [mem_queryEscape_not_extra hb]
  simp [h0]

theorem queryEscape_eq_amended (bs : GoStr) : queryEscape bs = amendedOAuthEncode bs := by
  induction bs with
  | nil => rfl
  | cons b bs ih =>
    rw [queryEscape, amendedOAuthEncode, ih]
    cases hu : isUnreservedByte b <;> simp [shouldEscapeQueryByte, hu]

/-- Claim C3: refuted at the space character.  `oauthEncode " "` yields
`"+"`, while the claimed encoder (percent-encode everything outside the
unreserved set) yields `"%20"`. -/
theorem claim3_counterexample : oauthEncode (gs " ") ≠ claimedOAuthEncode (gs " ") := by
  decide

/-- Claim C3 as amended: `oauthEncode` percent-encodes every byte outside
the unreserved set `A-Z a-z 0-9 - . _ ~` with uppercase hex digits — the
five characters `! * ' ( )` included — except the space character, which
is emitted as `'+'` rather than `%20`. -/
theorem claim3_encoding : ∀ bs : GoStr, oauthEncode bs = amendedOAuthEncode bs := by
  intro bs
  rw [oauthEncode_eq_queryEscape, queryEscape_eq_amended]

theorem inner_foldl (f : GoStr → GoStr) (vs : List GoStr) :
    ∀ acc : List GoStr, vs.foldl (fun a v => a ++ [f v]) acc = acc ++ vs.map f := by
  induction vs with
  | nil => intro acc; simp
  | cons v vs ih => intro acc; simp [ih]

theorem outer_foldl (vals : GoStr → List GoStr) (item : GoStr → GoStr → GoStr)
    (keys : List GoStr) :
    ∀ acc : List GoStr,
      keys.foldl (fun a k => (vals k).foldl (fun a2 v => a2 ++ [item k v]) a) acc
        = acc ++ concatAll (keys.map (fun k => (vals k).map (item k))) := by
  induction keys with
  | nil => intro acc; simp [concatAll]
  | cons k ks ih =>
    intro acc
    rw [List.foldl_cons, inner_foldl (item k) (vals k) acc, List.map_cons]
    rw [ih]
    simp [concatAll]

theorem params_arr_eq (params : Values) :
    (getSortedKeys params).foldl
        (fun acc k =>
          (valuesOf params k).foldl
            (fun acc2 v => acc2 ++ [joinWith [61] [oauthEncode k, oauthEncode v]]) acc)
        []
      = concatAll ((sortStrings (params.map Prod.fst)).map
          (fun k => (valuesOf params k).map
            (fun v => joinWith [61] [oauthEncode k, oauthEncode v]))) := by
  rw [getSortedKeys,
    outer_foldl (valuesOf params) (fun k v => joinWith [61] [oauthEncode k, oauthEncode v])]
  simp

/-- Claim C1: refuted on the uppercasing of the method.
`oauth1PrepareRequest` uses the method string as passed; with method
`"get"` the base string starts with `get&`, not `GET&` as the claim's
`METHOD` (uppercase HTTP method) requires. -/
theorem claim1_counterexample :
    (oauth1PrepareRequest cfgPlain none (gs "get") (gs "http://e/x") (some []) none 1
        (gs "n")).message
      ≠ claimedBaseString (gs "get") (gs "http://e/x")
          (oauth1CollectParams cfgPlain none (some []) none 1 (gs "n")) := by
  decide

/-- Claim C1 as amended: the HMAC is computed over the base string
`method&encoded(base URL with its query string stripped)&encoded(parameter
string)` where the parameter string sorts parameter names in byte-wise
lexical order, keeps every value of a multi-valued parameter as its own
`name=value` pair, percent-encodes each name and value, joins pairs with
`'='` and the list with `'&'` — but the HTTP method is used exactly as
passed (defaulted to `GET` only when empty), not uppercased. -/
theorem claim1_base_string :
    ∀ (p : OAuth1ClientConfig) (credentials : Option AuthToken) (method uri : GoStr)
      (urlQuery additional_params : Option Values) (timestamp : Nat) (nonce : GoStr),
      (oauth1PrepareRequest p credentials method uri urlQuery additional_params timestamp
          nonce).message
        = joinWith [38]
            [(if method.isEmpty then gs "GET" else method),
             oauthEncode (trimSpace (takeBeforeQuestion uri)),
             oauthEncode (specParameterString
               (oauth1CollectParams p credentials urlQuery additional_params timestamp
                 nonce))] := by
  intro p credentials method uri uq ap ts nonce
  simp only [oauth1PrepareRequest, specParameterString]
  rw [params_arr_eq]

/-- Claim C2: refuted on the percent-encoding of the key components.  With
consumer secret `"a b"` the code's key is `"a b&"` while the claimed key
`encoded(consumer_secret)&encoded(token_secret_or_empty)` is `"a+b&"`. -/
theorem claim2_counterexample :
    (oauth1PrepareRequest cfgSpacySecret none (gs "GET") (gs "u") none none 1 (gs "n")).key
      ≠ oauthEncode (gs "a b") ++ [38] ++ oauthEncode [] := by
  decide

/-- Claim C2 as amended: the HMAC-SHA1 signing key is the raw (not
percent-encoded) `consumer_secret & token_secret_or_empty`; when the
credentials are nil or carry no secret the second component is empty and
the trailing `'&'` is still present. -/
theorem claim2_key :
    (∀ (p : OAuth1ClientConfig) (credentials : Option AuthToken) (method uri : GoStr)
        (uq ap : Option Values) (ts : Nat) (nonce : GoStr),
        (oauth1PrepareRequest p credentials method uri uq ap ts nonce).key
          = p.consumerSecret ++ [38] ++
              (match credentials with
               | some c => c.secret
               | none => [])) ∧
    (∀ (p : OAuth1ClientConfig) (method uri : GoStr) (uq ap : Option Values) (ts : Nat)
        (nonce : GoStr),
        (oauth1PrepareRequest p none method uri uq ap ts nonce).key
          = p.consumerSecret ++ [38]) ∧
    (∀ (p : OAuth1ClientConfig) (t method uri : GoStr) (uq ap : Option Values) (ts : Nat)
        (nonce : GoStr),
        (oauth1PrepareRequest p (some { token := t, secret := [] }) method uri uq ap ts
            nonce).key
          = p.consumerSecret ++ [38]) := by
  refine ⟨?_, ?_, ?_⟩
  · intro p credentials method uri uq ap ts nonce
    cases credentials with
    | none => simp [oauth1PrepareRequest, joinWith]
    | some c =>
      cases hs : c.secret with
      | nil => simp [oauth1PrepareRequest, joinWith, hs]
      | cons x xs => simp [oauth1PrepareRequest, joinWith, hs]
  · intro p method uri uq ap ts nonce
    simp [oauth1PrepareRequest, joinWith]
  · intro p t method uri uq ap ts nonce
    simp [oauth1PrepareRequest, joinWith]

/-- Claim C10: `defaultOAuth1ParseAuthToken` is total (a Lean function on
byte strings by construction), always yields a credential object (never
the nil interface value), and parses the empty body into empty
credentials with no error. -/
theorem claim10_default_parse :
    (∀ v : GoStr, (defaultOAuth1ParseAuthToken v).1.isSome = true) ∧
    defaultOAuth1ParseAuthToken [] = (some { token := [], secret := [] }, none) := by
  exact ⟨fun v => rfl, by decide⟩

/-- Claim C6: a callback request whose query string has no non-empty
`oauth_token` makes `oauth1RequestTokenGranted` report not-granted and
`oauth1ExchangeRequestTokenForAccess` return an error, in both cases
before any network call and with the table untouched. -/
theorem claim6_missing_token :
    ∀ (svc : GoStr) (parse : GoStr → Option AuthToken × Option GoErr)
      (table : TokenSecretMap) (rawQuery : GoStr) (net : NetResult),
      vGet (parseQuery rawQuery).1 (gs "oauth_token") = [] →
      oauth1RequestTokenGranted svc parse table (some rawQuery) net
          = { granted := false, newCurrent := none, table := table, netAttempted := false } ∧
        oauth1ExchangeRequestTokenForAccess svc parse table (some rawQuery) net
          = { err := some (GoErr.textError (gs "Expected oauth_token")), newCurrent := none,
              table := table, netAttempted := false } := by
  intro svc parse table rawQuery net h
  constructor
  · simp [oauth1RequestTokenGranted, h]
  · simp [oauth1ExchangeRequestTokenForAccess, h]

/-- Witness for claim C6 at the concrete callback query `a=b`. -/
theorem claim6_witness :
    oauth1RequestTokenGranted (gs "s") defaultOAuth1ParseAuthToken [] (some (gs "a=b"))
        netEmptyBody
      = { granted := false, newCurrent := none, table := [], netAttempted := false } ∧
    oauth1ExchangeRequestTokenForAccess (gs "s") defaultOAuth1ParseAuthToken []
        (some (gs "a=b")) netEmptyBody
      = { err := some (GoErr.textError (gs "Expected oauth_token")), newCurrent := none,
          table := [], netAttempted := false } :=
  claim6_missing_token (gs "s") defaultOAuth1ParseAuthToken [] (gs "a=b") netEmptyBody
    (by decide)

theorem mapLookup_insert_self (m : TokenSecretMap) (k : GoStr) (v : SecretInfo) :
    mapLookup (mapInsert m k v) k = some v := by
  induction m with
  | nil => simp [mapInsert, mapLookup]
  | cons e m ih =>
    by_cases he : e.1 = k
    · simp [mapInsert, mapLookup, he]
    · simp [mapInsert, mapLookup, he, ih]

theorem mapLookup_insert_isSome (m : TokenSecretMap) (k k' : GoStr) (v : SecretInfo)
    (h : (mapLookup m k).isSome = true) :
    (mapLookup (mapInsert m k' v) k).isSome = true := by
  induction m with
  | nil => simp [mapLookup] at h
  | cons e m ih =>
    obtain ⟨a, b⟩ := e
    by_cases hak' : a = k'
    · simp only [mapInsert, if_pos hak']
      by_cases hk : k' = k
      · simp [mapLookup, hk]
      · rw [mapLookup, if_neg hk]
        rw [mapLookup] at h
        rw [if_neg (by rw [hak']; exact hk)] at h
        exact h
    · simp only [mapInsert, if_neg hak']
      by_cases hak : a = k
      · simp [mapLookup, hak]
      · rw [mapLookup, if_neg hak]
        rw [mapLookup, if_neg hak] at h
        exact ih h

/-- Claim C8: a callback carrying a non-empty `oauth_token` and no
`oauth_verifier` is not failed for the missing verifier: both
handshake-completion operations still reach the access-token exchange,
and the exchange attaches no `oauth_verifier` parameter. -/
theorem claim8_verifier_optional :
    ∀ (svc : GoStr) (parse : GoStr → Option AuthToken × Option GoErr)
      (table : TokenSecretMap) (rawQuery : GoStr) (net : NetResult),
      vGet (parseQuery rawQuery).1 (gs "oauth_token") ≠ [] →
      vGet (parseQuery rawQuery).1 (gs "oauth_verifier") = [] →
      (oauth1RequestTokenGranted svc parse table (some rawQuery) net).netAttempted = true ∧
      (oauth1ExchangeRequestTokenForAccess svc parse table (some rawQuery) net).netAttempted
          = true ∧
      (oauth1RequestToken svc parse table
          { token := vGet (parseQuery rawQuery).1 (gs "oauth_token"), secret := [] }
          (vGet (parseQuery rawQuery).1 (gs "oauth_verifier")) net).verifierParamSet
        = false := by
  intro svc parse table rawQuery net h hv
  have hne : (vGet (parseQuery rawQuery).1 (gs "oauth_token")).isEmpty = false := by
    cases hl : (vGet (parseQuery rawQuery).1 (gs "oauth_token")).isEmpty
    · rfl
    · exact absurd (List.isEmpty_iff.mp hl) h
  refine ⟨?_, ?_, ?_⟩
  · simp only [oauth1RequestTokenGranted, hne]
    simp only [Bool.false_eq_true, if_false]
    split <;> rfl
  · simp only [oauth1ExchangeRequestTokenForAccess, hne]
    simp only [Bool.false_eq_true, if_false]
    split
    · rfl
    · split
      · rfl
      · split <;> rfl
  · simp [oauth1RequestToken, hv, unescapeOr, queryUnescape]

/-- Witness for claim C8 at the concrete callback query `oauth_token=t`
(no verifier). -/
theorem claim8_witness :
    (oauth1RequestTokenGranted (gs "s") defaultOAuth1ParseAuthToken [] (some (gs "oauth_token=t"))
        netEmptyBody).netAttempted = true ∧
    (oauth1ExchangeRequestTokenForAccess (gs "s") defaultOAuth1ParseAuthToken []
        (some (gs "oauth_token=t")) netEmptyBody).netAttempted = true ∧
    (oauth1RequestToken (gs "s") defaultOAuth1ParseAuthToken []
        { token := vGet (parseQuery (gs "oauth_token=t")).1 (gs "oauth_token"), secret := [] }
        (vGet (parseQuery (gs "oauth_token=t")).1 (gs "oauth_verifier"))
        netEmptyBody).verifierParamSet = false :=
  claim8_verifier_optional (gs "s") defaultOAuth1ParseAuthToken [] (gs "oauth_token=t")
    netEmptyBody (by decide) (by decide)

theorem firstNonNil_single (x : Option GoErr) : firstNonNil [x] = x := by
  cases x <;> rfl

/-- Claim C7: `oauth1RequestToken` propagates the first non-nil error among
the transport error, the body-stage error (the read error, or a non-empty
body yielding no usable token+secret pair surfaced verbatim), and the
parse error, in that order. -/
theorem claim7_error_priority :
    ∀ (svc : GoStr) (parse : GoStr → Option AuthToken × Option GoErr)
      (table : TokenSecretMap) (credentials : AuthToken) (verifier : GoStr) (net : NetResult),
      (oauth1RequestToken svc parse table credentials verifier net).err
        = firstNonNil
            [net.transportErr, bodyStageError parse net,
             (parse (if net.hasBody then net.body else [])).2] := by
  intro svc parse table credentials verifier net
  simp only [oauth1RequestToken, bodyStageError]
  cases ht : net.transportErr with
  | some e => simp [firstNonNil]
  | none =>
    cases hb : net.hasBody with
    | true =>
      cases hr : net.readErr with
      | some e2 =>
        cases hu : credUsable (parse net.body).1 <;> simp [firstNonNil, hu]
      | none =>
        cases hu : credUsable (parse net.body).1 with
        | true => simp [firstNonNil, hu, firstNonNil_single]
        | false =>
          cases he : net.body.isEmpty with
          | true => simp [firstNonNil, hu, he, firstNonNil_single]
          | false => simp [firstNonNil, hu, he]
    | false =>
      simp [firstNonNil, firstNonNil_single]

/-- Claim C9: refuted on eviction.  A successful access-token exchange for
temporary token `t1` (the response grants access credentials `(at, as)`)
leaves the correlation-table entry for `t1` in place. -/
theorem claim9_counterexample :
    (oauth1RequestToken (gs "svc") defaultOAuth1ParseAuthToken [(gs "t1", infoT1)]
        { token := gs "t1", secret := [] } [] netAccessBody).err = none ∧
    credUsable (oauth1RequestToken (gs "svc") defaultOAuth1ParseAuthToken [(gs "t1", infoT1)]
        { token := gs "t1", secret := [] } [] netAccessBody).cred = true ∧
    mapLookup (oauth1RequestToken (gs "svc") defaultOAuth1ParseAuthToken [(gs "t1", infoT1)]
        { token := gs "t1", secret := [] } [] netAccessBody).table (gs "t1")
      = some infoT1 := by
  decide

/-- Claim C9 as amended: correlation-table entries are never evicted; the
access-token exchange only adds (or overwrites) an entry for the newly
issued token, so every token with an entry before the exchange still has
one afterwards. -/
theorem claim9_no_eviction :
    ∀ (svc : GoStr) (parse : GoStr → Option AuthToken × Option GoErr)
      (table : TokenSecretMap) (credentials : AuthToken) (verifier : GoStr)
      (net : NetResult) (k : GoStr),
      (mapLookup table k).isSome = true →
      (mapLookup (oauth1RequestToken svc parse table credentials verifier net).table
          k).isSome = true := by
  intro svc parse table credentials verifier net k h
  simp only [oauth1RequestToken]
  cases hc : credUsable (parse (if net.hasBody then net.body else [])).1 with
  | false => simp only [hc, Bool.false_eq_true, if_false]; exact h
  | true =>
    simp only [hc, if_true]
    cases hp : (parse (if net.hasBody then net.body else [])).1 with
    | none => exact h
    | some cc => exact mapLookup_insert_isSome _ _ _ _ h

/-- Witness for claim C9's amended statement: the `t1` entry survives the
successful exchange. -/
theorem claim9_witness :
    (mapLookup (oauth1RequestToken (gs "svc") defaultOAuth1ParseAuthToken [(gs "t1", infoT1)]
        { token := gs "t1", secret := [] } [] netAccessBody).table (gs "t1")).isSome = true :=
  claim9_no_eviction (gs "svc") defaultOAuth1ParseAuthToken [(gs "t1", infoT1)]
    { token := gs "t1", secret := [] } [] netAccessBody (gs "t1") (by decide)

/-- Claim C5 is right about the code's intent but the code violates it:
with callback query `oauth_token=T` and an access-token round trip that
succeeds with an empty body, `oauth1RequestTokenGranted` reports granted
and installs the empty token/secret pair — a partial credential — as the
current credentials (its sibling `oauth1ExchangeRequestTokenForAccess`
guards against exactly this). -/
theorem claim5_bug_eval :
    oauth1RequestTokenGranted (gs "svc") defaultOAuth1ParseAuthToken []
        (some (gs "oauth_token=T")) netEmptyBody
      = { granted := true, newCurrent := some { token := [], secret := [] }, table := [],
          netAttempted := true } := by
  decide

/-- Claim C4: refuted on tokens that query-unescaping rewrites.  The table
holds the pair `("a+b", "s")`, yet an exchange supplying token `"a+b"`
and no secret signs with an empty secret, because `oauth1RequestToken`
query-unescapes the token to `"a b"` before the lookup. -/
theorem claim4_counterexample :
    (oauth1RequestToken (gs "svc") defaultOAuth1ParseAuthToken [(gs "a+b", infoPlus)]
        { token := gs "a+b", secret := [] } [] netEmptyBody).signingCred.secret
      ≠ gs "s" := by
  decide

/-- Claim C4 as amended: for temporary credentials `(T, S)` that
`getAuthToken` records, an access-token exchange supplying only token `T`
resolves to `S` through the table provided query-unescaping leaves `T`
unchanged (no `'+'` and no `'%'` in `T`) — the code unescapes the token
before the lookup; and when the table has no entry for the (unescaped)
token, the exchange falls back to the secret carried by the credentials
object passed in. -/
theorem claim4_correlation :
    (∀ (svc : GoStr) (parse : GoStr → Option AuthToken × Option GoErr)
        (table : TokenSecretMap) (net : NetResult) (c : AuthToken) (err : Option GoErr)
        (table' : TokenSecretMap),
        getAuthToken svc parse table net = (some c, err, table') →
        credUsable (some c) = true →
        mapLookup table' c.token
          = some { service := svc, token := c.token, secret := c.secret }) ∧
    (∀ (svc : GoStr) (parse : GoStr → Option AuthToken × Option GoErr)
        (table : TokenSecretMap) (T : GoStr) (info : SecretInfo) (verifier : GoStr)
        (net : NetResult),
        queryUnescape T = some T →
        mapLookup table T = some info →
        (oauth1RequestToken svc parse table { token := T, secret := [] } verifier
            net).signingCred
          = { token := T, secret := info.secret }) ∧
    (∀ (svc : GoStr) (parse : GoStr → Option AuthToken × Option GoErr)
        (table : TokenSecretMap) (T sec verifier : GoStr) (net : NetResult),
        queryUnescape T = some T →
        mapLookup table T = none →
        (oauth1RequestToken svc parse table { token := T, secret := sec } verifier
            net).signingCred
          = { token := T, secret := sec }) := by
  refine ⟨?_, ?_, ?_⟩
  · intro svc parse table net c err table' h hu
    cases ht : net.transportErr with
    | some e =>
      simp only [getAuthToken, ht, Prod.mk.injEq] at h
      exact absurd h.1 (by simp)
    | none =>
      simp only [getAuthToken, ht] at h
      cases hp : (parse net.body).1 with
      | none =>
        simp only [hp, credUsable, Bool.false_eq_true, if_false] at h
        split at h <;> simp only [Prod.mk.injEq] at h <;> exact absurd h.1 (by simp)
      | some c' =>
        simp only [hp] at h
        cases hcu : credUsable (some c') with
        | true =>
          simp only [hcu, if_true] at h
          simp only [Prod.mk.injEq] at h
          obtain ⟨h1, _, h3⟩ := h
          obtain rfl : c' = c := Option.some.inj h1
          rw [← h3]
          exact mapLookup_insert_self table c'.token _
        | false =>
          simp only [hcu, Bool.false_eq_true, if_false] at h
          split at h <;>
            · simp only [Prod.mk.injEq] at h
              obtain ⟨h1, _, _⟩ := h
              obtain rfl : c' = c := Option.some.inj h1
              rw [hcu] at hu
              exact absurd hu (by simp)
  · intro svc parse table T info verifier net hq hl
    have hT : unescapeOr T = T := by simp [unescapeOr, hq]
    simp [oauth1RequestToken, hT, hl]
  · intro svc parse table T sec verifier net hq hl
    have hT : unescapeOr T = T := by simp [unescapeOr, hq]
    cases hsec : sec with
    | nil => simp [oauth1RequestToken, hT, hl]
    | cons x xs => simp [oauth1RequestToken, hT, hl]

/-- Witness for claim C4's amended statement: the request-token leg records
`(t1, s1)`; an exchange supplying only `t1` signs with secret `s1`; an
exchange for an unknown token `t2` falls back to the supplied secret. -/
theorem claim4_witness :
    mapLookup (getAuthToken (gs "svc") defaultOAuth1ParseAuthToken [] netRequestBody).2.2
        (gs "t1")
      = some { service := gs "svc", token := gs "t1", secret := gs "s1" } ∧
    (oauth1RequestToken (gs "svc") defaultOAuth1ParseAuthToken [(gs "t1", infoT1)]
        { token := gs "t1", secret := [] } [] netEmptyBody).signingCred
      = { token := gs "t1", secret := gs "s1" } ∧
    (oauth1RequestToken (gs "svc") defaultOAuth1ParseAuthToken []
        { token := gs "t2", secret := gs "sx" } [] netEmptyBody).signingCred
      = { token := gs "t2", secret := gs "sx" } :=
  ⟨claim4_correlation.1 (gs "svc") defaultOAuth1ParseAuthToken [] netRequestBody
      { token := gs "t1", secret := gs "s1" } none
      [(gs "t1", { service := gs "svc", token := gs "t1", secret := gs "s1" })]
      (by decide) (by decide),
   claim4_correlation.2.1 (gs "svc") defaultOAuth1ParseAuthToken [(gs "t1", infoT1)]
      (gs "t1") infoT1 [] netEmptyBody (by decide) (by decide),
   claim4_correlation.2.2 (gs "svc") defaultOAuth1ParseAuthToken [] (gs "t2") (gs "sx") []
      netEmptyBody (by decide) (by decide)⟩

end OAuth1
